import Mathlib

/-!
Shallow embedding of the graph-compilation pipeline of `scripts/build_graph.py`
and of the schedule-database time normalization of `scripts/sqlize_gtfs.py`.

Python strings are modelled as `List Char` (`Str`), Python `int` as `ℤ`,
Python `float` as `ℚ` (exact arithmetic; the scripts only ever feed decimal
literals and CSV-parsed decimals into these positions), Python `set` as a
duplicate-free `List` whose iteration order is never observed except through
an explicit enumeration parameter (mirroring the fact that CPython set
iteration order is unspecified across processes), and Python `dict` as an
association list where later insertions shadow earlier ones.
-/

namespace Pelo

/-- Python strings, modelled as their character sequences. -/
abbrev Str := List Char

/-- Model of Python `str.strip()`: remove leading and trailing whitespace. -/
def pyStrip (s : Str) : Str :=
  ((s.dropWhile Char.isWhitespace).reverse.dropWhile Char.isWhitespace).reverse

/-- Model of Python `str.split(sep)` for a one-character separator `sep`. -/
def pySplit (sep : Char) : Str → List Str
  | [] => [[]]
  | c :: rest =>
    if c = sep then [] :: pySplit sep rest
    else
      match pySplit sep rest with
      | [] => [[c]]
      | h :: t => (c :: h) :: t

/-- Value of a sequence of decimal digit characters. -/
def decDigits (l : Str) : Nat := l.foldl (fun a c => a * 10 + (c.toNat - 48)) 0

/-- Model of Python `int(s)` on a decimal string: optional sign followed by
one or more digits, surrounding whitespace tolerated; `none` when the call
would raise `ValueError`.  (Underscore digit grouping and non-decimal bases,
which never occur in the feeds, are not modelled.) -/
def pyInt? (s : Str) : Option Int :=
  let t := pyStrip s
  match t with
  | '-' :: rest =>
      if rest ≠ [] ∧ rest.all Char.isDigit then some (-(decDigits rest : Int)) else none
  | '+' :: rest =>
      if rest ≠ [] ∧ rest.all Char.isDigit then some ((decDigits rest : Int)) else none
  | _ =>
      if t ≠ [] ∧ t.all Char.isDigit then some ((decDigits t : Int)) else none

/-- Model of Python `int(f)` on a float value: truncation toward zero. -/
def pyTrunc (q : ℚ) : Int := q.num.tdiv q.den

/-- Function `robust_time_to_seconds` from `build_graph.py` (string case): split the
stripped value on `:`, parse hours, minutes and seconds (the seconds field is
first cut at a decimal point), and return `-1` whenever anything at all goes
wrong, mirroring the bare `except: return -1`. -/
def robust_time_to_seconds (val : Str) : Int :=
  let parts := pySplit ':' (pyStrip val)
  match parts with
  | p0 :: p1 :: p2 :: _ =>
      match pyInt? p0, pyInt? p1, pyInt? ((pySplit '.' p2).headD []) with
      | some h, some m, some s => h * 3600 + m * 60 + s
      | _, _, _ => -1
  | _ => -1

/-- One row of the `stop_times` table, after the `pd.to_numeric(...).fillna(0)`
coercion of `pickup_type`.  Only the columns that `build_graph.py` reads are
modelled. -/
structure StopTimeRow where
  trip_id : Str
  arrival_time : Str
  stop_id : Str
  pickup_type : Int
deriving DecidableEq, Repr

/-- One row of the `trips` table (the columns read by `build_graph.py`). -/
structure Trip where
  trip_id : Str
  route_id : Str
deriving DecidableEq, Repr

/-- One row of the `routes` table (the columns read by `build_graph.py`). -/
structure Route where
  route_id : Str
  route_type : Int
  route_short_name : Str
deriving DecidableEq, Repr

/-- One row of the `stops` table (the columns read by `build_graph.py`). -/
structure Stop where
  stop_id : Str
  stop_name : Str
  stop_lon : ℚ
  stop_lat : ℚ
deriving DecidableEq, Repr

/-- The `seconds` column computed at line 94 of `build_graph.py`. -/
def seconds (r : StopTimeRow) : Int := robust_time_to_seconds r.arrival_time

/-- The standard window mask of line 95:
`(st['seconds'] >= start_sec) & (st['seconds'] <= end_sec)`. -/
def mask_std (start_sec end_sec : Int) (r : StopTimeRow) : Bool :=
  decide (start_sec ≤ seconds r) && decide (seconds r ≤ end_sec)

/-- The extended (post-midnight) window mask of line 96, shifted by 86400s. -/
def mask_ext (start_sec end_sec : Int) (r : StopTimeRow) : Bool :=
  mask_std (start_sec + 86400) (end_sec + 86400) r

/-- Result of the window-selection step: the active rows and the window that
was chosen for the graph builder. -/
structure WindowChoice where
  active : List StopTimeRow
  search_start : Int
  search_end : Int
deriving DecidableEq, Repr

/-- Lines 89–105 of `build_graph.py`: drop the non-commercial rows
(`pickup_type == 1`), then keep the rows matched by whichever of the standard
and the `+86400`-shifted mask matches strictly more rows (ties keep the
standard window). -/
def selectWindow (start_sec end_sec : Int) (st : List StopTimeRow) : WindowChoice :=
  let stp := st.filter fun r => decide (r.pickup_type ≠ 1)
  if stp.countP (mask_ext start_sec end_sec) > stp.countP (mask_std start_sec end_sec) then
    ⟨stp.filter (mask_ext start_sec end_sec), start_sec + 86400, end_sec + 86400⟩
  else
    ⟨stp.filter (mask_std start_sec end_sec), start_sec, end_sec⟩

/-- Conversion `start_sec = int(start_hour * 3600)` of lines 52–53. -/
def hourToSec (h : ℚ) : Int := pyTrunc (h * 3600)

/-- Line 114 of `build_graph.py`: `is_deep_night = (1.0 <= start_hour <= 4.0)`.
Only the start hour is consulted. -/
def is_deep_night (start_hour : ℚ) : Bool :=
  decide ((1 : ℚ) ≤ start_hour) && decide (start_hour ≤ (4 : ℚ))

/-- The chained inner merge of lines 124–128:
`st_active.merge(trips_mini, on='trip_id').merge(routes_mini, on='route_id')`.
Row order and multiplicity follow the pandas inner-join convention (left-frame
order, with matching right-frame rows in their own order). -/
def mergedCheck (st_active : List StopTimeRow) (trips : List Trip) (routes : List Route) :
    List (StopTimeRow × Trip × Route) :=
  st_active.flatMap fun r =>
    (trips.filter fun t => t.trip_id = r.trip_id).flatMap fun t =>
      (routes.filter fun ro => ro.route_id = t.route_id).map fun ro => (r, t, ro)

/-- First-occurrence deduplication (the order kept by `pandas.Series.unique`
and by Python dict key insertion), with an accumulator of already-seen keys. -/
def dedupFirstAux {α : Type} [DecidableEq α] (seen : List α) : List α → List α
  | [] => []
  | x :: xs => if x ∈ seen then dedupFirstAux seen xs else x :: dedupFirstAux (x :: seen) xs

/-- First-occurrence deduplication of a list. -/
def dedupFirst {α : Type} [DecidableEq α] (l : List α) : List α := dedupFirstAux [] l

/-- Line 138: `valid_trips = merged_check[merged_check['route_type'] != 1]['trip_id'].unique()`. -/
def valid_trips (st_active : List StopTimeRow) (trips : List Trip) (routes : List Route) :
    List Str :=
  dedupFirst
    (((mergedCheck st_active trips routes).filter fun x => decide (x.2.2.route_type ≠ 1)).map
      fun x => x.1.trip_id)

/-- Lines 112–141: when `is_deep_night` holds, keep only the rows whose
`trip_id` belongs to a non-metro-typed joined row
(`st_active[st_active['trip_id'].isin(valid_trips)]`); otherwise the rows
pass through untouched. -/
def metroFilter (deep : Bool) (trips : List Trip) (routes : List Route)
    (st_active : List StopTimeRow) : List StopTimeRow :=
  if deep then
    st_active.filter fun r => decide (r.trip_id ∈ valid_trips st_active trips routes)
  else st_active

/-- Association-list lookup (first matching key wins). -/
def alookup {α β : Type} [DecidableEq α] (k : α) : List (α × β) → Option β
  | [] => none
  | (k', v) :: rest => if k' = k then some v else alookup k rest

/-- Lookup in a Python dict built by inserting the pairs in list order:
a later insertion of the same key shadows an earlier one. -/
def pyDictGet {α β : Type} [DecidableEq α] (ps : List (α × β)) (k : α) : Option β :=
  alookup k ps.reverse

/-- Function `clean_val` from `build_graph.py`: stringify (inputs are already strings
here), strip, and cut a trailing `".0"` float artifact. -/
def clean_val (s : Str) : Str :=
  let t := pyStrip s
  if ['.', '0'].isSuffixOf t then t.dropLast.dropLast else t

/-- The cleaning applied to station names throughout `build_graph.py`:
`str(name).replace('"', '').strip()`. -/
def cleanName (s : Str) : Str := pyStrip (s.filter fun c => c ≠ '"')

/-- Python `round` (banker's rounding, half to even) on an exact rational.
The scripts apply it to CSV-parsed decimal coordinates; binary floating-point
representation noise is not modelled. -/
def pyRound (q : ℚ) : Int :=
  let f : Int := ⌊q⌋
  let r := q - f
  if r < 1 / 2 then f
  else if 1 / 2 < r then f + 1
  else if f % 2 = 0 then f else f + 1

/-- `round(x, 4)`: round to four decimal places. -/
def round4 (q : ℚ) : ℚ := (pyRound (q * 10000) : ℚ) / 10000

/-- Attributes of one raw graph node produced by the external feed-graph
builder (peartree).  `build_graph.py` reads only `x` and `y` from the node's
attribute dict.  The `raw_modes` field is modelled from the spec: the spec's
RawNode carries a `raw_modes` set of mode tags, which the code never
consults. -/
structure NodeData where
  x : ℚ
  y : ℚ
  raw_modes : List Str
deriving DecidableEq, Repr

instance : Inhabited NodeData := ⟨⟨0, 0, []⟩⟩

/-- The raw multigraph returned by the external builder: nodes with string
ids and attributes, edges `(u, v, length)` in iteration order.  Parallel
edges may repeat an `(u, v)` pair. -/
structure RawGraph where
  nodes : List (Str × NodeData)
  edges : List (Str × Str × ℚ)
deriving DecidableEq, Repr

/-- Function `get_stop_name_spatial` from `build_graph.py`: exact lookup of the
cleaned raw id in `id_map`; on failure, lookup of the node's own coordinates
rounded to 4 decimals in `coord_map`; on failure, the `"Unknown"` sentinel. -/
def get_stop_name_spatial (node_data : NodeData) (coord_map : ℚ × ℚ → Option Str)
    (id_map : Str → Option Str) (raw_id : Str) : Str :=
  let cid := clean_val raw_id
  match id_map cid with
  | some n => n
  | none => (coord_map (round4 node_data.x, round4 node_data.y)).getD "Unknown".data

/-- Strict lexicographic comparison of character sequences by code point,
as Python string `<` behaves. -/
def strLt : Str → Str → Bool
  | [], [] => false
  | [], _ :: _ => true
  | _ :: _, [] => false
  | a :: as, b :: bs => if a = b then strLt as bs else decide (a < b)

/-- Stable insertion of `x` after every element strictly smaller than it. -/
def insertLt {α : Type} (lt : α → α → Bool) (x : α) : List α → List α
  | [] => [x]
  | y :: ys => if lt y x then y :: insertLt lt x ys else x :: y :: ys

/-- Stable ascending sort (model of Python `sorted`). -/
def pySorted {α : Type} (lt : α → α → Bool) : List α → List α
  | [] => []
  | x :: xs => insertLt lt x (pySorted lt xs)

/-- Line 202: `sorted(list(G.nodes(data=True)), key=lambda x: str(x[0]))`. -/
def sortNodes (ns : List (Str × NodeData)) : List (Str × NodeData) :=
  pySorted (fun a b => strLt a.1 b.1) ns

/-- Union of two Python-set carriers: keep the left carrier, append the
members of the right one that are new. -/
def setUnion (a b : List Str) : List Str := a ++ b.filter fun m => decide (m ∉ a)

/-- The accumulator entry of `grouped_nodes` for one canonical name. -/
structure GroupData where
  xsum : ℚ
  ysum : ℚ
  count : ℕ
  modes : List Str
deriving DecidableEq, Repr

instance : Inhabited GroupData := ⟨⟨0, 0, 0, []⟩⟩

/-- Update of `grouped_nodes[clean_name]` for one raw node (lines 211–217):
insert the key at the end on first sight, then accumulate coordinate sums,
the merge count, and the mode-set union. -/
def upsertGroup (acc : List (Str × GroupData)) (k : Str) (d : NodeData) (vm : List Str) :
    List (Str × GroupData) :=
  match acc with
  | [] => [(k, ⟨d.x, d.y, 1, setUnion [] vm⟩)]
  | (k', g) :: rest =>
      if k' = k then (k', ⟨g.xsum + d.x, g.ysum + d.y, g.count + 1, setUnion g.modes vm⟩) :: rest
      else (k', g) :: upsertGroup rest k d vm

/-- Lines 204–217: one pass over the sorted raw nodes.  Each node's name is
resolved and cleaned, the `name_to_lines` entry is filtered to non-empty,
non-`"nan"` line names (`m and str(m) != 'nan'`), and the per-name group is
updated.  The node's own attributes contribute only `x` and `y`. -/
def groupNodes (cm : ℚ × ℚ → Option Str) (im : Str → Option Str)
    (ntl : Str → List Str) (ns : List (Str × NodeData)) : List (Str × GroupData) :=
  ns.foldl
    (fun acc node =>
      let clean := cleanName (get_stop_name_spatial node.2 cm im node.1)
      let valid := (ntl clean).filter fun m => decide (m ≠ []) && decide (m ≠ "nan".data)
      upsertGroup acc clean node.2 valid)
    []

/-- Decimal digit characters. -/
def digitChar (n : ℕ) : Char := "0123456789".data.getD n '0'

/-- Digits of `n` with an explicit fuel argument (structural recursion). -/
def natReprAux (fuel n : ℕ) : Str :=
  match fuel with
  | 0 => []
  | fuel + 1 => if n < 10 then [digitChar n] else natReprAux fuel (n / 10) ++ [digitChar (n % 10)]

/-- Model of Python `str(n)` for a non-negative integer. -/
def natRepr (n : ℕ) : Str := natReprAux (n + 1) n

/-- Model of Python `str(i)` / JSON integer serialization. -/
def intRepr (i : Int) : Str :=
  if i < 0 then '-' :: natRepr (-i).toNat else natRepr i.toNat

/-- One serialized node object of the artifact (lines 220–227).
`boarding_cost` is the literal integer 0 the code writes. -/
structure NodeOut where
  id : Str
  name : Str
  x : ℚ
  y : ℚ
  modes : List Str
  boarding_cost : Int
deriving DecidableEq, Repr

/-- Lines 219–229: enumerate the grouped names in first-insertion order;
`id` is the decimal string of the enumeration index, coordinates are the
accumulated means, and `modes` materializes the mode set through the
set-enumeration function `sl` (CPython exposes an unspecified iteration
order at `list(data["modes"])`). -/
def nodesList (grouped : List (Str × GroupData)) (sl : List Str → List Str) : List NodeOut :=
  grouped.enum.map fun p =>
    { id := natRepr p.1
      name := p.2.1
      x := p.2.2.xsum / (p.2.2.count : ℚ)
      y := p.2.2.ysum / (p.2.2.count : ℚ)
      modes := sl p.2.2.modes
      boarding_cost := 0 }

/-- The `node_name_to_id` dict of lines 228–229. -/
def nodeNameToId (grouped : List (Str × GroupData)) : List (Str × ℕ) :=
  grouped.enum.map fun p => (p.2.1, p.1)

/-- Lines 231–235: map every raw node id whose resolved clean name received a
canonical id to that id. -/
def origToNewId (sorted : List (Str × NodeData)) (cm : ℚ × ℚ → Option Str)
    (im : Str → Option Str) (n2i : List (Str × ℕ)) : List (Str × ℕ) :=
  sorted.filterMap fun node =>
    let clean := cleanName (get_stop_name_spatial node.2 cm im node.1)
    (alookup clean n2i).map fun i => (node.1, i)

/-- Lines 237–242: every raw edge whose endpoints both remap is emitted with
its endpoints replaced by canonical ids and its length truncated to an
integer, except that edges whose remapped endpoints coincide are dropped.
No deduplication across raw edges takes place. -/
def edgesList (m : List (Str × ℕ)) (es : List (Str × Str × ℚ)) : List (ℕ × ℕ × Int) :=
  es.filterMap fun e =>
    match pyDictGet m e.1, pyDictGet m e.2.1 with
    | some nu, some nv => if nu = nv then none else some (nu, nv, pyTrunc e.2.2)
    | _, _ => none

/-- The `final_data` object of line 244. -/
structure Artifact where
  nodes : List NodeOut
  edges : List (ℕ × ℕ × Int)
deriving DecidableEq, Repr

/-- Lines 195–244: the full export step, from the builder's raw graph to the
`final_data` object. -/
def exportGraph (G : RawGraph) (cm : ℚ × ℚ → Option Str) (im : Str → Option Str)
    (ntl : Str → List Str) (sl : List Str → List Str) : Artifact :=
  let sorted := sortNodes G.nodes
  let grouped := groupNodes cm im ntl sorted
  ⟨nodesList grouped sl, edgesList (origToNewId sorted cm im (nodeNameToId grouped)) G.edges⟩

/-- The `id_to_name_map` dict of lines 170–172 as key/value pairs in row
order (`set_index` keeps the last row for a duplicated key, which
`pyDictGet` models). -/
def idMapEntries (stops : List Stop) : List (Str × Str) :=
  stops.map fun s => (clean_val s.stop_id, s.stop_name)

/-- The `id_map` lookup function. -/
def idMap (stops : List Stop) : Str → Option Str := pyDictGet (idMapEntries stops)

/-- The spatial map of lines 183–186: 4-decimal-rounded `(lon, lat)` to stop
name, later rows shadowing earlier ones. -/
def coordMap (stops : List Stop) : ℚ × ℚ → Option Str :=
  pyDictGet (stops.map fun s => ((round4 s.stop_lon, round4 s.stop_lat), s.stop_name))

/-- The `route_map` dict of line 164. -/
def routeMapEntries (routes : List Route) : List (Str × Str) :=
  routes.map fun ro => (ro.route_id, ro.route_short_name)

/-- Column `merged['line_name'] = merged['route_id'].map(route_map)` for one trip:
a missing route yields pandas NaN, whose string form `"nan"` is what the
downstream `str(m) != 'nan'` test sees. -/
def lineNameOf (routes : List Route) (t : Trip) : Str :=
  (pyDictGet (routeMapEntries routes) t.route_id).getD "nan".data

/-- The inner merge `pd.merge(st_active, trips_mini, on='trip_id')` of
line 166. -/
def mergedTrips (st_active : List StopTimeRow) (trips : List Trip) :
    List (StopTimeRow × Trip) :=
  st_active.flatMap fun r =>
    (trips.filter fun t => t.trip_id = r.trip_id).map fun t => (r, t)

/-- The distinct `clean_stop_id` keys of the merged frame (line 174). -/
def mergedSids (st_active : List StopTimeRow) (trips : List Trip) : List Str :=
  dedupFirst ((mergedTrips st_active trips).map fun p => clean_val p.1.stop_id)

/-- The `id_to_lines` set for one `clean_stop_id` (line 174), as a set
carrier: the distinct line names observed at that stop id. -/
def linesOfSid (st_active : List StopTimeRow) (trips : List Trip) (routes : List Route)
    (sid : Str) : List Str :=
  dedupFirst
    (((mergedTrips st_active trips).filter fun p => clean_val p.1.stop_id = sid).map fun p =>
      lineNameOf routes p.2)

/-- The `name_to_lines` mapping of lines 175–180 as a function: the union of
the line sets of every merged stop id whose `id_to_name_map` name (default
`"Unknown"`) cleans to the requested name.  Only set membership is ever
observed downstream. -/
def name_to_lines (st_active : List StopTimeRow) (trips : List Trip) (routes : List Route)
    (stops : List Stop) (clean : Str) : List Str :=
  dedupFirst
    (((mergedSids st_active trips).filter fun sid =>
        cleanName ((pyDictGet (idMapEntries stops) sid).getD "Unknown".data) = clean).flatMap
      (linesOfSid st_active trips routes))

/-- Function `generate_graph` from `build_graph.py`, starting after the feed load:
window selection, the early empty-artifact return of lines 107–110, the
deep-night metro filter, the external builder call, and the export.  The
builder and the set-enumeration function are explicit parameters. -/
def generate_graph (start_hour end_hour : ℚ) (stops : List Stop) (trips : List Trip)
    (routes : List Route) (st : List StopTimeRow)
    (builder : List StopTimeRow → Int → Int → RawGraph) (sl : List Str → List Str) : Artifact :=
  let wc := selectWindow (hourToSec start_hour) (hourToSec end_hour) st
  if wc.active.isEmpty then ⟨[], []⟩
  else
    let stA := metroFilter (is_deep_night start_hour) trips routes wc.active
    let G := builder stA wc.search_start wc.search_end
    exportGraph G (coordMap stops) (idMap stops) (name_to_lines stA trips routes stops) sl

/-! ## Serialization (lines 246–247): `json.dump(final_data, f, ensure_ascii=False, separators=(',', ':'))` -/

/-- The opening brace character of JSON object syntax. -/
def braceL : Char := '\x7b'

/-- The closing brace character of JSON object syntax. -/
def braceR : Char := '\x7d'

/-- Lowercase hexadecimal digit characters. -/
def hexChars : Str := "0123456789abcdef".data

/-- Lowercase hexadecimal digit of a value below 16. -/
def hexDigit (n : ℕ) : Char := hexChars.getD n '0'

/-- The escaping of one character by Python's `json.dump` with
`ensure_ascii=False`: quote, backslash and control characters are escaped,
every other character — in particular every non-ASCII character — is written
literally. -/
def escChar (c : Char) : Str :=
  if c = '"' then ['\\', '"']
  else if c = '\\' then ['\\', '\\']
  else if c = '\n' then ['\\', 'n']
  else if c = '\t' then ['\\', 't']
  else if c = '\r' then ['\\', 'r']
  else if c = '\x08' then ['\\', 'b']
  else if c = '\x0c' then ['\\', 'f']
  else if c.toNat < 32 then ['\\', 'u', '0', '0', hexDigit (c.toNat / 16), hexDigit (c.toNat % 16)]
  else [c]

/-- JSON string serialization. -/
def dumpStr (s : Str) : Str := '"' :: (s.flatMap escChar ++ ['"'])

/-- Join a list of strings with a separator (Python `sep.join`), the shape
in which `json.dump` emits array and object members. -/
def joinSep (sep : Str) : List Str → Str
  | [] => []
  | [x] => x
  | x :: y :: xs => x ++ sep ++ joinSep sep (y :: xs)

/-- One node object as serialized by `json.dump` with the compact separators
`(',', ':')`: keys in the construction order of lines 220–227, no whitespace
introduced anywhere.  `fr` is CPython's float `repr`, an external
deterministic function, abstracted as a parameter. -/
def dumpNode (fr : ℚ → Str) (n : NodeOut) : Str :=
  braceL ::
    ("\"id\":".data ++ dumpStr n.id
      ++ ",\"name\":".data ++ dumpStr n.name
      ++ ",\"x\":".data ++ fr n.x
      ++ ",\"y\":".data ++ fr n.y
      ++ ",\"modes\":[".data ++ joinSep [','] (n.modes.map dumpStr)
      ++ "],\"boarding_cost\":".data ++ intRepr n.boarding_cost) ++ [braceR]

/-- One edge triple as serialized by `json.dump`. -/
def dumpEdge (e : ℕ × ℕ × Int) : Str :=
  '[' :: (natRepr e.1 ++ ',' :: natRepr e.2.1 ++ ',' :: intRepr e.2.2) ++ [']']

/-- The bytes (characters) written for `final_data`: an object with exactly
the two keys `nodes` and `edges`, in that insertion order. -/
def dumpArtifact (fr : ℚ → Str) (A : Artifact) : Str :=
  braceL ::
    ("\"nodes\":[".data ++ joinSep [','] (A.nodes.map (dumpNode fr))
      ++ "],\"edges\":[".data ++ joinSep [','] (A.edges.map dumpEdge)
      ++ "]".data) ++ [braceR]

/-- Line 109 of `build_graph.py`: the empty-window early return writes
`json.dump({"nodes": [], "edges": []}, f)` with the `json` module's default
separators `(', ', ': ')` and `ensure_ascii=True`.  The dumped object is the
fixed two-key empty object, so the written bytes are this constant. -/
def emptyWindowDump : Str :=
  braceL :: ("\"nodes\": [], \"edges\": []".data ++ [braceR])

/-- The whitespace characters of the JSON grammar. -/
def wsChar (c : Char) : Prop := c = ' ' ∨ c = '\t' ∨ c = '\n' ∨ c = '\r'

instance (c : Char) : Decidable (wsChar c) := by unfold wsChar; infer_instance

/-- No JSON whitespace character occurs in the string. -/
def NoWS (l : Str) : Prop := ∀ c ∈ l, ¬ wsChar c

instance (l : Str) : Decidable (NoWS l) := by unfold NoWS; infer_instance

/-! ## The resolver as the specification describes it (§4.2), for comparison -/

/-- The stop-identity resolution strategy list as the specification states
it: (1) exact lookup of the normalized id; (2) when the id contains a `_`
separator, the id with its last `_`-delimited suffix removed, then each
`_`-delimited component, against `id_map`; (3) the rounded coordinates
against `coord_map`; (4) the sentinel.  This definition follows the spec's
words; `get_stop_name_spatial` above is the code's actual resolver. -/
def resolveSpec (node_data : NodeData) (coord_map : ℚ × ℚ → Option Str)
    (id_map : Str → Option Str) (raw_id : Str) : Str :=
  let cid := clean_val raw_id
  match id_map cid with
  | some n => n
  | none =>
      let comps := pySplit '_' cid
      let cands := if comps.length ≥ 2 then joinSep ['_'] comps.dropLast :: comps else []
      match cands.findSome? id_map with
      | some n => n
      | none => (coord_map (round4 node_data.x, round4 node_data.y)).getD "Unknown".data

/-! ## `sqlize_gtfs.py`: arrival-time normalization for the schedule database -/

/-- The row filter of line 70 of `sqlize_gtfs.py`:
`arrival_time.str.match(r'^\d+:\d{2}:\d{2}$')` (ASCII digits; the feeds
contain no other digit scripts). -/
def timePatMatch (t : Str) : Bool :=
  match pySplit ':' t with
  | [h, m, s] =>
      decide (h ≠ []) && h.all Char.isDigit && decide (m.length = 2) && m.all Char.isDigit
        && decide (s.length = 2) && s.all Char.isDigit
  | _ => false

/-- Formatting `f"{hour:02d}"` for the non-negative hour values this code produces. -/
def pad2 (i : Int) : Str := if i.toNat < 10 then '0' :: natRepr i.toNat else natRepr i.toNat

/-- Function `normalize_gtfs_time` from `sqlize_gtfs.py` lines 73–82: when the hour
field parses and is at least 24, rebuild the string with the hour reduced
modulo 24 and zero-padded to two digits; any failure inside the `try` block
(unparsable hour, missing fields) returns the input unchanged. -/
def normalize_gtfs_time (t : Str) : Str :=
  match pySplit ':' t with
  | p0 :: rest =>
      match pyInt? p0 with
      | some h =>
          if 24 ≤ h then
            match rest with
            | p1 :: p2 :: _ => pad2 (h % 24) ++ ':' :: p1 ++ ':' :: p2
            | _ => t
          else t
      | none => t
  | [] => t

/-- Line 93 of `sqlize_gtfs.py`: the value inserted into the `schedules`
table is the normalized time with its last three characters (`:SS`) cut:
`.str[:-3]`. -/
def storedArrival (t : Str) : Str :=
  let n := normalize_gtfs_time t
  n.take (n.length - 3)

/-- The hour component of a stored `H:MM`-shaped value, as an integer. -/
def hourComponent (s : Str) : Option Int := pyInt? ((pySplit ':' s).headD [])

/-! ## Shared lemmas -/

lemma mask_std_eq_false_of_malformed (s e : Int) (r : StopTimeRow)
    (hm : seconds r = -1) (hs : 0 ≤ s) : mask_std s e r = false := by
  simp only [mask_std, hm, Bool.and_eq_false_iff, decide_eq_false_iff_not]
  left
  omega

lemma mask_ext_eq_false_of_malformed (s e : Int) (r : StopTimeRow)
    (hm : seconds r = -1) (hs : 0 ≤ s) : mask_ext s e r = false := by
  unfold mask_ext
  exact mask_std_eq_false_of_malformed _ _ _ hm (by omega)

lemma selectWindow_malformed (s e : Int) (l1 l2 : List StopTimeRow) (r : StopTimeRow)
    (hm : seconds r = -1) (hs : 0 ≤ s) :
    selectWindow s e (l1 ++ r :: l2) = selectWindow s e (l1 ++ l2) := by
  have h1 := mask_std_eq_false_of_malformed s e r hm hs
  have h2 := mask_ext_eq_false_of_malformed s e r hm hs
  unfold selectWindow
  by_cases hpk : r.pickup_type ≠ 1
  · simp [List.filter_append, List.filter_cons, hpk, List.countP_append, List.countP_cons,
      h1, h2]
  · simp [List.filter_append, List.filter_cons, hpk]

/-! ## C9 -/

/-- Claim C9: a stop-time row whose `arrival_time` fails to parse (its `seconds`
value is `-1`) is excluded by the window filter without any exception path,
and — for a requested window with a non-negative start — contributes nothing
to the compiled artifact: both the window selection and the whole
`generate_graph` result are unchanged by the row's presence. -/
theorem malformed_time_row_is_inert (l1 l2 : List StopTimeRow) (r : StopTimeRow)
    (start_hour end_hour : ℚ) (stops : List Stop) (trips : List Trip) (routes : List Route)
    (builder : List StopTimeRow → Int → Int → RawGraph) (sl : List Str → List Str)
    (hmal : robust_time_to_seconds r.arrival_time = -1)
    (hpos : 0 ≤ hourToSec start_hour) :
    selectWindow (hourToSec start_hour) (hourToSec end_hour) (l1 ++ r :: l2)
      = selectWindow (hourToSec start_hour) (hourToSec end_hour) (l1 ++ l2)
    ∧ generate_graph start_hour end_hour stops trips routes (l1 ++ r :: l2) builder sl
      = generate_graph start_hour end_hour stops trips routes (l1 ++ l2) builder sl := by
  have hsel := selectWindow_malformed (hourToSec start_hour) (hourToSec end_hour) l1 l2 r
    hmal hpos
  refine ⟨hsel, ?_⟩
  unfold generate_graph
  rw [hsel]

/-- Claim C9 witness: the row with `arrival_time = "abc"` is inert for the window
`[0h, 1h)`. -/
theorem malformed_time_row_is_inert_witness :
    selectWindow (hourToSec 0) (hourToSec 1)
        ([] ++ (⟨"T1".data, "abc".data, "S1".data, 0⟩ : StopTimeRow) :: [])
      = selectWindow (hourToSec 0) (hourToSec 1) ([] ++ [])
    ∧ generate_graph 0 1 [] [] [] ([] ++ (⟨"T1".data, "abc".data, "S1".data, 0⟩ : StopTimeRow) :: [])
        (fun _ _ _ => ⟨[], []⟩) (fun l => l)
      = generate_graph 0 1 [] [] [] ([] ++ []) (fun _ _ _ => ⟨[], []⟩) (fun l => l) :=
  malformed_time_row_is_inert [] [] ⟨"T1".data, "abc".data, "S1".data, 0⟩ 0 1 [] [] []
    (fun _ _ _ => ⟨[], []⟩) (fun l => l) (by decide)
    (by norm_num [hourToSec, pyTrunc])

/-! ## C2 -/

lemma mem_filter_masked (s e : Int) (st : List StopTimeRow) (r : StopTimeRow) :
    r ∈ (st.filter fun x => decide (x.pickup_type ≠ 1)).filter (mask_std s e) ↔
      r ∈ st ∧ r.pickup_type ≠ 1 ∧ s ≤ seconds r ∧ seconds r ≤ e := by
  simp only [List.mem_filter, mask_std, Bool.and_eq_true, decide_eq_true_eq, and_assoc]

/-- Claim C2 (amended): the window filter admits exactly the rows that pass the
pickup filter and whose event time `t` satisfies
`search_start ≤ t ≤ search_end` for the chosen (standard or `+86400`-shifted)
window — a closed interval at both ends — and whenever the selection is
empty the compiler emits the empty artifact `{nodes: [], edges: []}` (the
early return of lines 107–110, taken before the builder is consulted) with
no exception path. -/
theorem window_filter_characterization (sh eh : ℚ) (st : List StopTimeRow)
    (stops : List Stop) (trips : List Trip) (routes : List Route)
    (builder : List StopTimeRow → Int → Int → RawGraph) (sl : List Str → List Str) :
    (∀ r, r ∈ (selectWindow (hourToSec sh) (hourToSec eh) st).active ↔
        r ∈ st ∧ r.pickup_type ≠ 1 ∧
        (selectWindow (hourToSec sh) (hourToSec eh) st).search_start ≤ seconds r ∧
        seconds r ≤ (selectWindow (hourToSec sh) (hourToSec eh) st).search_end)
    ∧ ((selectWindow (hourToSec sh) (hourToSec eh) st).active = [] →
        generate_graph sh eh stops trips routes st builder sl = ⟨[], []⟩) := by
  constructor
  · intro r
    unfold selectWindow
    dsimp only
    split
    · exact mem_filter_masked (hourToSec sh + 86400) (hourToSec eh + 86400) st r
    · exact mem_filter_masked (hourToSec sh) (hourToSec eh) st r
  · intro h
    unfold generate_graph
    simp [h]

/-- Claim C2 is false as stated: with `start = end = 1` the code's closed-interval
mask admits the row whose event time is exactly 3600 s, and the compiled
artifact is not the empty one. -/
theorem window_start_eq_end_counterexample :
    (selectWindow 3600 3600 [⟨"T1".data, "01:00:00".data, "S1".data, 0⟩]).active
      = [⟨"T1".data, "01:00:00".data, "S1".data, 0⟩]
    ∧ (generate_graph 1 1 [⟨"S1".data, "Alpha".data, 0, 0⟩] [] []
          [⟨"T1".data, "01:00:00".data, "S1".data, 0⟩]
          (fun _ _ _ => ⟨[("S1".data, ⟨0, 0, []⟩)], []⟩) (fun l => l)).nodes.map
        (fun n => n.name) = ["Alpha".data] := by
  have h1 : hourToSec 1 = 3600 := by norm_num [hourToSec, pyTrunc]
  constructor
  · decide
  · unfold generate_graph
    rw [h1]
    decide

/-- Claim C2 witness: the characterization applied to a concrete singleton feed
(the row at 08:30:00 is admitted for the 8h–9h window) and, at an empty
feed, to the empty-artifact branch. -/
theorem window_filter_characterization_witness :
    (⟨"T1".data, "08:30:00".data, "S1".data, 0⟩ : StopTimeRow) ∈
        (selectWindow (hourToSec 8) (hourToSec 9)
          [⟨"T1".data, "08:30:00".data, "S1".data, 0⟩]).active
    ∧ generate_graph 8 9 [] [] [] [] (fun _ _ _ => ⟨[], []⟩) (fun l => l) = ⟨[], []⟩ := by
  have h8 : hourToSec 8 = 28800 := by norm_num [hourToSec, pyTrunc]
  have h9 : hourToSec 9 = 32400 := by norm_num [hourToSec, pyTrunc]
  constructor
  · exact ((window_filter_characterization 8 9 [⟨"T1".data, "08:30:00".data, "S1".data, 0⟩]
      [] [] [] (fun _ _ _ => ⟨[], []⟩) (fun l => l)).1 _).mpr
      (by rw [h8, h9]; decide)
  · exact (window_filter_characterization 8 9 [] [] [] [] (fun _ _ _ => ⟨[], []⟩)
      (fun l => l)).2 (by rw [h8, h9]; decide)

/-! ## C3 -/

lemma mem_dedupFirstAux {α : Type} [DecidableEq α] (seen : List α) (l : List α) (x : α) :
    x ∈ dedupFirstAux seen l ↔ x ∈ l ∧ x ∉ seen := by
  induction l generalizing seen with
  | nil => simp [dedupFirstAux]
  | cons y ys ih =>
    unfold dedupFirstAux
    by_cases hy : y ∈ seen
    · rw [if_pos hy, ih]
      simp only [List.mem_cons]
      constructor
      · rintro ⟨h1, h2⟩
        exact ⟨Or.inr h1, h2⟩
      · rintro ⟨h1 | h1, h2⟩
        · exact absurd (h1 ▸ hy) h2
        · exact ⟨h1, h2⟩
    · rw [if_neg hy]
      simp only [List.mem_cons, ih]
      constructor
      · rintro (rfl | ⟨h1, h2⟩)
        · exact ⟨Or.inl rfl, hy⟩
        · exact ⟨Or.inr h1, fun hs => h2 (Or.inr hs)⟩
      · rintro ⟨h1 | h1, h2⟩
        · exact Or.inl h1
        · by_cases hxy : x = y
          · exact Or.inl hxy
          · exact Or.inr ⟨h1, by simp [List.mem_cons, hxy, h2]⟩

lemma mem_dedupFirst {α : Type} [DecidableEq α] (l : List α) (x : α) :
    x ∈ dedupFirst l ↔ x ∈ l := by
  simp [dedupFirst, mem_dedupFirstAux]

lemma mem_valid_trips (stA : List StopTimeRow) (trips : List Trip) (routes : List Route)
    (t : Str) :
    t ∈ valid_trips stA trips routes ↔
      ∃ p ∈ mergedCheck stA trips routes, p.1.trip_id = t ∧ p.2.2.route_type ≠ 1 := by
  simp only [valid_trips, mem_dedupFirst, List.mem_map, List.mem_filter,
    decide_eq_true_eq]
  constructor
  · rintro ⟨p, ⟨hp, hq⟩, rfl⟩
    exact ⟨p, hp, rfl, hq⟩
  · rintro ⟨p, hp, rfl, hq⟩
    exact ⟨p, ⟨hp, hq⟩, rfl⟩

/-- Claim C3 (amended): the metro exclusion is applied iff `1 ≤ start_hour ≤ 4` —
the code never consults the end hour, so the window need not lie inside
`[1:00, 4:00)` — and, when applied, it keeps exactly the rows whose trip
identifier has a joined trip/route witness with a non-metro (`≠ 1`) route
type; membership depends only on the trip identifier, so all rows of a trip
are kept or dropped together. -/
theorem deep_night_metro_exclusion (sh : ℚ) (trips : List Trip) (routes : List Route)
    (stA : List StopTimeRow) :
    (¬((1 : ℚ) ≤ sh ∧ sh ≤ 4) → metroFilter (is_deep_night sh) trips routes stA = stA)
    ∧ (((1 : ℚ) ≤ sh ∧ sh ≤ 4) → ∀ r ∈ stA,
        (r ∈ metroFilter (is_deep_night sh) trips routes stA ↔
          ∃ p ∈ mergedCheck stA trips routes,
            p.1.trip_id = r.trip_id ∧ p.2.2.route_type ≠ 1))
    ∧ (∀ r1 r2, r1 ∈ stA → r2 ∈ stA → r1.trip_id = r2.trip_id →
        (r1 ∈ metroFilter (is_deep_night sh) trips routes stA ↔
          r2 ∈ metroFilter (is_deep_night sh) trips routes stA)) := by
  have hiff : is_deep_night sh = true ↔ ((1 : ℚ) ≤ sh ∧ sh ≤ 4) := by
    simp [is_deep_night]
  refine ⟨?_, ?_, ?_⟩
  · intro h
    have hfalse : is_deep_night sh = false := by
      rcases Bool.eq_false_or_eq_true (is_deep_night sh) with ht | hf
      · exact absurd (hiff.mp ht) h
      · exact hf
    simp [metroFilter, hfalse]
  · intro h r hr
    rw [metroFilter, if_pos (hiff.mpr h)]
    simp only [List.mem_filter, decide_eq_true_eq, mem_valid_trips]
    constructor
    · rintro ⟨_, hv⟩
      exact hv
    · intro hv
      exact ⟨hr, hv⟩
  · intro r1 r2 h1 h2 heq
    unfold metroFilter
    split
    · simp only [List.mem_filter, decide_eq_true_eq, heq, h1, h2, true_and]
    · simp [h1, h2]

/-- Claim C3 is false as stated: for the window 3h–10h — not contained in
`[1:00, 4:00)` — the code still applies the metro exclusion, dropping the
stop-times of the metro-typed trip `TM` that the window filter had
admitted. -/
theorem metro_dropped_outside_deep_night_window :
    (selectWindow (hourToSec 3) (hourToSec 10)
        [⟨"TM".data, "03:30:00".data, "S1".data, 0⟩,
          ⟨"TB".data, "03:30:00".data, "S1".data, 0⟩]).active
      = [⟨"TM".data, "03:30:00".data, "S1".data, 0⟩,
          ⟨"TB".data, "03:30:00".data, "S1".data, 0⟩]
    ∧ metroFilter (is_deep_night 3) [⟨"TM".data, "RM".data⟩, ⟨"TB".data, "RB".data⟩]
        [⟨"RM".data, 1, "M1".data⟩, ⟨"RB".data, 3, "B7".data⟩]
        [⟨"TM".data, "03:30:00".data, "S1".data, 0⟩,
          ⟨"TB".data, "03:30:00".data, "S1".data, 0⟩]
      = [⟨"TB".data, "03:30:00".data, "S1".data, 0⟩]
    ∧ ¬((1 : ℚ) ≤ 3 ∧ (10 : ℚ) ≤ 4) := by
  have h3 : hourToSec 3 = 10800 := by norm_num [hourToSec, pyTrunc]
  have h10 : hourToSec 10 = 36000 := by norm_num [hourToSec, pyTrunc]
  refine ⟨?_, ?_, ?_⟩
  · rw [h3, h10]
    decide
  · decide
  · decide

/-- Claim C3 witness: at `start_hour = 5` nothing is filtered; at `start_hour = 2`
a bus row with a non-metro joined route is kept. -/
theorem deep_night_metro_exclusion_witness :
    metroFilter (is_deep_night 5) [⟨"TB".data, "RB".data⟩] [⟨"RB".data, 3, "B7".data⟩]
        [⟨"TB".data, "02:30:00".data, "S1".data, 0⟩]
      = [⟨"TB".data, "02:30:00".data, "S1".data, 0⟩]
    ∧ (⟨"TB".data, "02:30:00".data, "S1".data, 0⟩ : StopTimeRow) ∈
        metroFilter (is_deep_night 2) [⟨"TB".data, "RB".data⟩] [⟨"RB".data, 3, "B7".data⟩]
          [⟨"TB".data, "02:30:00".data, "S1".data, 0⟩] := by
  constructor
  · exact (deep_night_metro_exclusion 5 [⟨"TB".data, "RB".data⟩] [⟨"RB".data, 3, "B7".data⟩]
      [⟨"TB".data, "02:30:00".data, "S1".data, 0⟩]).1 (by decide)
  · exact ((deep_night_metro_exclusion 2 [⟨"TB".data, "RB".data⟩] [⟨"RB".data, 3, "B7".data⟩]
      [⟨"TB".data, "02:30:00".data, "S1".data, 0⟩]).2.1 (by decide) _ (by decide)).mpr
      ⟨(⟨"TB".data, "02:30:00".data, "S1".data, 0⟩, ⟨"TB".data, "RB".data⟩,
          ⟨"RB".data, 3, "B7".data⟩), by decide, by decide, by decide⟩

/-! ## C1 -/

lemma edgesList_filter_pair (m : List (Str × ℕ)) (es : List (Str × Str × ℚ)) (u v : ℕ) :
    ((edgesList m es).filter fun e => decide (e.1 = u ∧ e.2.1 = v)).map (fun e => e.2.2)
      = (es.filter fun e =>
            decide (pyDictGet m e.1 = some u ∧ pyDictGet m e.2.1 = some v ∧ u ≠ v)).map
          (fun e => pyTrunc e.2.2) := by
  induction es with
  | nil => rfl
  | cons e es ih =>
    simp only [edgesList, List.filterMap_cons] at ih ⊢
    rcases h1 : pyDictGet m e.1 with _ | nu
    · simpa [h1, List.filter_cons] using ih
    · rcases h2 : pyDictGet m e.2.1 with _ | nv
      · simpa [h1, h2, List.filter_cons] using ih
      · by_cases hne : nu = nv
        · subst hne
          have hcond : ¬(nu = u ∧ nu = v ∧ ¬u = v) := by
            rintro ⟨rfl, rfl, huv⟩
            exact huv rfl
          simpa [h1, h2, hcond, List.filter_cons] using ih
        · by_cases hu : nu = u
          · subst hu
            by_cases hv : nv = v
            · subst hv
              simpa [h1, h2, hne, List.filter_cons] using ih
            · simpa [h1, h2, hne, hv, List.filter_cons] using ih
          · simpa [h1, h2, hne, hu, List.filter_cons] using ih

lemma edgesList_no_self_loop (m : List (Str × ℕ)) (es : List (Str × Str × ℚ)) :
    ∀ e ∈ edgesList m es, e.1 ≠ e.2.1 := by
  intro e he
  simp only [edgesList, List.mem_filterMap] at he
  rcases he with ⟨a, _, hfa⟩
  rcases h1 : pyDictGet m a.1 with _ | nu <;> rw [h1] at hfa
  · exact absurd hfa (by simp)
  · rcases h2 : pyDictGet m a.2.1 with _ | nv <;> rw [h2] at hfa
    · exact absurd hfa (by simp)
    · dsimp only at hfa
      by_cases hne : nu = nv
      · rw [if_pos hne] at hfa
        exact absurd hfa (by simp)
      · rw [if_neg hne] at hfa
        cases Option.some.inj hfa
        exact hne

/-- Claim C1 (amended): the export step emits one output edge per contributing raw
edge — an ordered pair `(u, v)` occurs once per raw edge that remaps to it,
each occurrence carrying the truncated length of its own raw edge, with no
per-pair deduplication and no minimum taken — and every emitted edge has
distinct endpoints.  Per ordered pair: the weights emitted for `(u, v)` are
exactly the truncated lengths of the raw edges whose endpoints remap to
`(u, v)`. -/
theorem canonical_edges_per_raw_edge (G : RawGraph) (cm : ℚ × ℚ → Option Str)
    (im : Str → Option Str) (ntl : Str → List Str) (sl : List Str → List Str) (u v : ℕ) :
    (((exportGraph G cm im ntl sl).edges.filter fun e => decide (e.1 = u ∧ e.2.1 = v)).map
        (fun e => e.2.2)
      = (G.edges.filter fun e =>
            decide
              (pyDictGet (origToNewId (sortNodes G.nodes) cm im
                  (nodeNameToId (groupNodes cm im ntl (sortNodes G.nodes)))) e.1 = some u ∧
                pyDictGet (origToNewId (sortNodes G.nodes) cm im
                  (nodeNameToId (groupNodes cm im ntl (sortNodes G.nodes)))) e.2.1 = some v ∧
                u ≠ v)).map (fun e => pyTrunc e.2.2))
    ∧ ∀ e ∈ (exportGraph G cm im ntl sl).edges, e.1 ≠ e.2.1 :=
  ⟨edgesList_filter_pair _ _ u v, edgesList_no_self_loop _ _⟩

/-- Claim C1 is false as stated: two parallel raw edges between the same remapped
pair yield two output edges `[0,1,300]` and `[0,1,280]` for the ordered pair
`(0, 1)` — more than one edge for the pair, and the first one's weight 300
is not the minimum 280. -/
theorem duplicate_pair_edges_counterexample :
    (exportGraph
        ⟨[("A1".data, ⟨0, 0, []⟩), ("B1".data, ⟨0, 0, []⟩)],
          [("A1".data, "B1".data, 300), ("A1".data, "B1".data, 280)]⟩
        (fun _ => none)
        (fun s =>
          if s = "A1".data then some "Alpha".data
          else if s = "B1".data then some "Beta".data else none)
        (fun _ => []) (fun l => l)).edges
      = [(0, 1, 300), (0, 1, 280)]
    ∧ ¬(([(0, 1, 300), (0, 1, 280)] : List (ℕ × ℕ × Int)).countP
          (fun e => decide (e.1 = 0 ∧ e.2.1 = 1)) ≤ 1)
    ∧ (300 : Int) ≠ min 300 280 := by
  refine ⟨by decide, by decide, by decide⟩

/-- Claim C1 witness: the no-self-loop conjunct applied to the one concrete edge
of a two-stop graph. -/
theorem canonical_edges_per_raw_edge_witness :
    ((0 : ℕ), (1 : ℕ), (300 : Int)).1 ≠ ((0 : ℕ), (1 : ℕ), (300 : Int)).2.1 :=
  (canonical_edges_per_raw_edge
      ⟨[("A1".data, ⟨0, 0, []⟩), ("B1".data, ⟨0, 0, []⟩)],
        [("A1".data, "B1".data, 300)]⟩
      (fun _ => none)
      (fun s =>
        if s = "A1".data then some "Alpha".data
        else if s = "B1".data then some "Beta".data else none)
      (fun _ => []) (fun l => l) 0 1).2 (0, 1, 300) (by decide)

/-! ## C6 -/

lemma upsertGroup_keys (acc : List (Str × GroupData)) (k : Str) (d : NodeData)
    (vm : List Str) :
    (upsertGroup acc k d vm).map Prod.fst =
      if k ∈ acc.map Prod.fst then acc.map Prod.fst else acc.map Prod.fst ++ [k] := by
  induction acc with
  | nil => simp [upsertGroup]
  | cons p rest ih =>
    obtain ⟨k', g⟩ := p
    by_cases hk : k' = k
    · subst hk
      simp [upsertGroup]
    · have hk2 : ¬(k = k') := fun h => hk h.symm
      by_cases hmem : k ∈ rest.map Prod.fst
      · simp [upsertGroup, hk, ih, hmem, List.mem_cons, hk2]
      · simp [upsertGroup, hk, ih, hmem, List.mem_cons, hk2]

lemma dedupFirstAux_congr {α : Type} [DecidableEq α] (s1 s2 : List α) (l : List α)
    (h : ∀ x, x ∈ s1 ↔ x ∈ s2) : dedupFirstAux s1 l = dedupFirstAux s2 l := by
  induction l generalizing s1 s2 with
  | nil => rfl
  | cons y ys ih =>
    unfold dedupFirstAux
    by_cases hy : y ∈ s1
    · rw [if_pos hy, if_pos ((h y).mp hy)]
      exact ih s1 s2 h
    · rw [if_neg hy, if_neg (fun hc => hy ((h y).mpr hc))]
      congr 1
      exact ih _ _ (fun x => by simp [List.mem_cons, h x])

lemma groupNodes_keys_aux (cm : ℚ × ℚ → Option Str) (im : Str → Option Str)
    (ntl : Str → List Str) (ns : List (Str × NodeData)) :
    ∀ acc : List (Str × GroupData),
      (ns.foldl
          (fun acc node =>
            let clean := cleanName (get_stop_name_spatial node.2 cm im node.1)
            let valid := (ntl clean).filter fun m => decide (m ≠ []) && decide (m ≠ "nan".data)
            upsertGroup acc clean node.2 valid)
          acc).map Prod.fst
        = acc.map Prod.fst ++
            dedupFirstAux (acc.map Prod.fst)
              (ns.map fun node => cleanName (get_stop_name_spatial node.2 cm im node.1)) := by
  induction ns with
  | nil =>
    intro acc
    simp [dedupFirstAux]
  | cons node rest ih =>
    intro acc
    simp only [List.foldl_cons, List.map_cons]
    dsimp only
    rw [ih, upsertGroup_keys]
    by_cases hmem : cleanName (get_stop_name_spatial node.2 cm im node.1) ∈ acc.map Prod.fst
    · rw [if_pos hmem]
      conv_rhs => unfold dedupFirstAux
      rw [if_pos hmem]
    · rw [if_neg hmem]
      conv_rhs => unfold dedupFirstAux
      rw [if_neg hmem,
        dedupFirstAux_congr
          (acc.map Prod.fst ++ [cleanName (get_stop_name_spatial node.2 cm im node.1)])
          (cleanName (get_stop_name_spatial node.2 cm im node.1) :: acc.map Prod.fst) _
          (fun x => by simp [List.mem_append, List.mem_cons, or_comm])]
      simp

lemma groupNodes_keys (cm : ℚ × ℚ → Option Str) (im : Str → Option Str)
    (ntl : Str → List Str) (ns : List (Str × NodeData)) :
    (groupNodes cm im ntl ns).map Prod.fst
      = dedupFirst (ns.map fun node => cleanName (get_stop_name_spatial node.2 cm im node.1)) := by
  have h := groupNodes_keys_aux cm im ntl ns []
  simpa [groupNodes, dedupFirst] using h

lemma nodesList_map_id (grouped : List (Str × GroupData)) (sl : List Str → List Str) :
    (nodesList grouped sl).map (fun n => n.id) = (List.range grouped.length).map natRepr := by
  unfold nodesList
  rw [List.map_map]
  rw [show ((fun n : NodeOut => n.id) ∘ fun p : ℕ × (Str × GroupData) =>
      ({ id := natRepr p.1, name := p.2.1, x := p.2.2.xsum / (p.2.2.count : ℚ),
         y := p.2.2.ysum / (p.2.2.count : ℚ), modes := sl p.2.2.modes,
         boarding_cost := 0 } : NodeOut)) = natRepr ∘ Prod.fst from rfl]
  rw [← List.map_map]
  simp

lemma nodesList_map_name (grouped : List (Str × GroupData)) (sl : List Str → List Str) :
    (nodesList grouped sl).map (fun n => n.name) = grouped.map Prod.fst := by
  unfold nodesList
  rw [List.map_map]
  rw [show ((fun n : NodeOut => n.name) ∘ fun p : ℕ × (Str × GroupData) =>
      ({ id := natRepr p.1, name := p.2.1, x := p.2.2.xsum / (p.2.2.count : ℚ),
         y := p.2.2.ysum / (p.2.2.count : ℚ), modes := sl p.2.2.modes,
         boarding_cost := 0 } : NodeOut)) = Prod.fst ∘ Prod.snd from rfl]
  rw [← List.map_map]
  simp

lemma nodesList_length (grouped : List (Str × GroupData)) (sl : List Str → List Str) :
    (nodesList grouped sl).length = grouped.length := by
  simp [nodesList]

/-- Claim C6: in every compiled artifact the node ids are the decimal strings of
the contiguous integers `0 .. N-1`, in order, and the names are assigned in
the order in which each canonical name first appears when the raw nodes are
sorted by the string form of their raw id. -/
theorem canonical_ids_contiguous (G : RawGraph) (cm : ℚ × ℚ → Option Str)
    (im : Str → Option Str) (ntl : Str → List Str) (sl : List Str → List Str) :
    (exportGraph G cm im ntl sl).nodes.map (fun n => n.id)
      = (List.range (exportGraph G cm im ntl sl).nodes.length).map natRepr
    ∧ (exportGraph G cm im ntl sl).nodes.map (fun n => n.name)
      = dedupFirst ((sortNodes G.nodes).map fun node =>
          cleanName (get_stop_name_spatial node.2 cm im node.1)) := by
  constructor
  · show (nodesList (groupNodes cm im ntl (sortNodes G.nodes)) sl).map _
      = (List.range (nodesList (groupNodes cm im ntl (sortNodes G.nodes)) sl).length).map _
    rw [nodesList_map_id, nodesList_length]
  · show (nodesList (groupNodes cm im ntl (sortNodes G.nodes)) sl).map _ = _
    rw [nodesList_map_name, groupNodes_keys]

/-! ## C5 -/

lemma mem_setUnion (a b : List Str) (m : Str) : m ∈ setUnion a b ↔ m ∈ a ∨ m ∈ b := by
  simp only [setUnion, List.mem_append, List.mem_filter, decide_eq_true_eq]
  tauto

lemma upsertGroup_pres (C : Str → Str → Prop) (k : Str) (d : NodeData) (vm : List Str)
    (hvm : ∀ m, m ∈ vm ↔ C k m) :
    ∀ acc : List (Str × GroupData),
      (∀ p ∈ acc, ∀ m, m ∈ p.2.modes ↔ C p.1 m) →
      ∀ p ∈ upsertGroup acc k d vm, ∀ m, m ∈ p.2.modes ↔ C p.1 m := by
  intro acc
  induction acc with
  | nil =>
    intro _ p hp m
    simp only [upsertGroup, List.mem_singleton] at hp
    subst hp
    simp only [mem_setUnion, List.not_mem_nil, false_or]
    exact hvm m
  | cons q rest ih =>
    obtain ⟨k', g⟩ := q
    intro hacc p hp m
    by_cases hk : k' = k
    · subst hk
      simp only [upsertGroup, if_pos rfl] at hp
      rcases List.mem_cons.mp hp with hp | hp
      · subst hp
        simp only [mem_setUnion]
        rw [hvm m, hacc (k', g) (List.mem_cons_self _ _) m]
        tauto
      · exact hacc p (List.mem_cons_of_mem _ hp) m
    · simp only [upsertGroup, if_neg hk] at hp
      rcases List.mem_cons.mp hp with hp | hp
      · subst hp
        exact hacc (k', g) (List.mem_cons_self _ _) m
      · exact ih (fun p hp => hacc p (List.mem_cons_of_mem _ hp)) p hp m

lemma groupNodes_modes (cm : ℚ × ℚ → Option Str) (im : Str → Option Str)
    (ntl : Str → List Str) (ns : List (Str × NodeData)) :
    ∀ p ∈ groupNodes cm im ntl ns, ∀ m,
      m ∈ p.2.modes ↔ m ∈ ntl p.1 ∧ (m ≠ [] ∧ m ≠ "nan".data) := by
  suffices h : ∀ acc : List (Str × GroupData),
      (∀ p ∈ acc, ∀ m, m ∈ p.2.modes ↔ m ∈ ntl p.1 ∧ (m ≠ [] ∧ m ≠ "nan".data)) →
      ∀ p ∈ ns.foldl
          (fun acc node =>
            let clean := cleanName (get_stop_name_spatial node.2 cm im node.1)
            let valid := (ntl clean).filter fun m => decide (m ≠ []) && decide (m ≠ "nan".data)
            upsertGroup acc clean node.2 valid)
          acc, ∀ m,
        m ∈ p.2.modes ↔ m ∈ ntl p.1 ∧ (m ≠ [] ∧ m ≠ "nan".data) by
    exact h [] (by simp)
  induction ns with
  | nil =>
    intro acc hacc
    exact hacc
  | cons node rest ih =>
    intro acc hacc
    simp only [List.foldl_cons]
    dsimp only
    refine ih _ ?_
    refine upsertGroup_pres (fun key m => m ∈ ntl key ∧ (m ≠ [] ∧ m ≠ "nan".data)) _ _ _ ?_
      acc hacc
    intro m
    simp [List.mem_filter, and_assoc]

lemma upsertGroup_xy (k : Str) (d dp : NodeData) (vm : List Str)
    (hx : d.x = dp.x) (hy : d.y = dp.y) :
    ∀ acc, upsertGroup acc k d vm = upsertGroup acc k dp vm := by
  intro acc
  induction acc with
  | nil => simp [upsertGroup, hx, hy]
  | cons q rest ih =>
    obtain ⟨kq, g⟩ := q
    by_cases hk : kq = k <;> simp [upsertGroup, hk, hx, hy, ih]

lemma insertLt_key_map (x : Str × NodeData) (l : List (Str × NodeData)) :
    insertLt (fun a b => strLt a.1 b.1) (x.1, (⟨x.2.x, x.2.y, []⟩ : NodeData))
        (l.map fun q => (q.1, (⟨q.2.x, q.2.y, []⟩ : NodeData)))
      = (insertLt (fun a b => strLt a.1 b.1) x l).map fun q =>
          (q.1, (⟨q.2.x, q.2.y, []⟩ : NodeData)) := by
  induction l with
  | nil => rfl
  | cons y ys ih =>
    simp only [List.map_cons, insertLt]
    dsimp only
    by_cases h : strLt y.1 x.1 = true
    · rw [if_pos h, if_pos h, List.map_cons, ih]
    · rw [if_neg h, if_neg h]
      rfl

lemma sortNodes_erase (ns : List (Str × NodeData)) :
    sortNodes (ns.map fun q => (q.1, (⟨q.2.x, q.2.y, []⟩ : NodeData)))
      = (sortNodes ns).map fun q => (q.1, (⟨q.2.x, q.2.y, []⟩ : NodeData)) := by
  unfold sortNodes
  induction ns with
  | nil => rfl
  | cons x xs ih =>
    simp only [List.map_cons, pySorted]
    rw [ih]
    exact insertLt_key_map x (pySorted _ xs)

lemma groupNodes_erase (cm : ℚ × ℚ → Option Str) (im : Str → Option Str)
    (ntl : Str → List Str) (ns : List (Str × NodeData)) :
    groupNodes cm im ntl (ns.map fun q => (q.1, (⟨q.2.x, q.2.y, []⟩ : NodeData)))
      = groupNodes cm im ntl ns := by
  unfold groupNodes
  rw [List.foldl_map]
  refine List.foldl_ext _ _ _ (fun acc node _ => ?_)
  exact upsertGroup_xy (cleanName (get_stop_name_spatial node.2 cm im node.1))
    ⟨node.2.x, node.2.y, []⟩ node.2
    ((ntl (cleanName (get_stop_name_spatial node.2 cm im node.1))).filter
      fun m => decide (m ≠ []) && decide (m ≠ "nan".data)) rfl rfl acc

lemma origToNewId_erase (cm : ℚ × ℚ → Option Str) (im : Str → Option Str)
    (n2i : List (Str × ℕ)) (sorted : List (Str × NodeData)) :
    origToNewId (sorted.map fun q => (q.1, (⟨q.2.x, q.2.y, []⟩ : NodeData))) cm im n2i
      = origToNewId sorted cm im n2i := by
  unfold origToNewId
  rw [List.filterMap_map]
  congr 1

/-- Claim C5 (amended): a canonical stop's modes come solely from the
`name_to_lines` (ModeAssociator) lookup for its canonical name, filtered to
drop empty and `"nan"` entries; the raw nodes' own `raw_modes` attributes are
never consulted — the artifact is invariant under erasing all of them. -/
theorem canonical_modes_from_lookup_only (G : RawGraph) (cm : ℚ × ℚ → Option Str)
    (im : Str → Option Str) (ntl : Str → List Str) (sl : List Str → List Str) :
    (∀ p ∈ groupNodes cm im ntl (sortNodes G.nodes), ∀ m,
        m ∈ p.2.modes ↔ m ∈ ntl p.1 ∧ (m ≠ [] ∧ m ≠ "nan".data))
    ∧ exportGraph ⟨G.nodes.map fun q => (q.1, (⟨q.2.x, q.2.y, []⟩ : NodeData)), G.edges⟩
        cm im ntl sl = exportGraph G cm im ntl sl := by
  constructor
  · exact groupNodes_modes cm im ntl (sortNodes G.nodes)
  · show Artifact.mk _ _ = Artifact.mk _ _
    rw [sortNodes_erase, groupNodes_erase, origToNewId_erase]

/-- Claim C5 is false as stated: a raw node carrying raw mode `"X"`, merged into a
stop whose ModeAssociator lookup is `{"A"}`, yields artifact modes `["A"]` —
the raw mode `"X"` from the claimed union is missing. -/
theorem raw_modes_ignored_counterexample :
    ((exportGraph ⟨[("S1".data, ⟨0, 0, ["X".data]⟩)], []⟩ (fun _ => none)
        (fun s => if s = "S1".data then some "Alpha".data else none)
        (fun s => if s = "Alpha".data then ["A".data] else []) (fun l => l)).nodes.map
      fun n => n.modes) = [["A".data]]
    ∧ "X".data ∈ ["X".data]
    ∧ "X".data ∉ ["A".data] := by
  refine ⟨by decide, by decide, by decide⟩

/-- Claim C5 witness: the characterization applied to the concrete one-node feed,
showing mode `"A"` present in the grouped entry for `"Alpha"`. -/
theorem canonical_modes_from_lookup_only_witness :
    "A".data ∈ (("Alpha".data, (⟨0, 0, 1, ["A".data]⟩ : GroupData)) : Str × GroupData).2.modes :=
  ((canonical_modes_from_lookup_only ⟨[("S1".data, ⟨0, 0, []⟩)], []⟩ (fun _ => none)
      (fun s => if s = "S1".data then some "Alpha".data else none)
      (fun s => if s = "Alpha".data then ["A".data] else []) (fun l => l)).1
    ("Alpha".data, ⟨0, 0, 1, ["A".data]⟩) (by decide) "A".data).mpr (by decide)

/-! ## C4 -/

/-- Claim C4 (amended): stop-identity resolution applies, in order: (1) exact
lookup of the normalized id in `id_map` — and when it hits, any coordinate
information is ignored entirely; (2) the node's own coordinates rounded to 4
decimals, in `coord_map`; (3) the literal sentinel `"Unknown"`.  No
separator/component strategy exists in the code. -/
theorem resolver_strategy_order (d : NodeData) (cm : ℚ × ℚ → Option Str)
    (im : Str → Option Str) (raw_id : Str) :
    (∀ n, im (clean_val raw_id) = some n →
      ∀ cm2 : ℚ × ℚ → Option Str, get_stop_name_spatial d cm2 im raw_id = n)
    ∧ (im (clean_val raw_id) = none → ∀ n, cm (round4 d.x, round4 d.y) = some n →
        get_stop_name_spatial d cm im raw_id = n)
    ∧ (im (clean_val raw_id) = none → cm (round4 d.x, round4 d.y) = none →
        get_stop_name_spatial d cm im raw_id = "Unknown".data) := by
  refine ⟨?_, ?_, ?_⟩
  · intro n hn cm2
    simp [get_stop_name_spatial, hn]
  · intro h1 n h2
    simp [get_stop_name_spatial, h1, h2]
  · intro h1 h2
    simp [get_stop_name_spatial, h1, h2]

/-- Claim C4 is false as stated: for the composite id `"56GHZ_726_0"` with
`id_map = ("726" to "Bellecour")` and an empty `coord_map`, the claimed
separator strategy (2) — which `resolveSpec` implements from the spec's
words — would resolve `"Bellecour"`, but the code's resolver returns the
sentinel `"Unknown"`. -/
theorem composite_id_strategy_missing_counterexample :
    get_stop_name_spatial ⟨0, 0, []⟩ (fun _ => none)
        (fun s => if s = "726".data then some "Bellecour".data else none) "56GHZ_726_0".data
      = "Unknown".data
    ∧ resolveSpec ⟨0, 0, []⟩ (fun _ => none)
        (fun s => if s = "726".data then some "Bellecour".data else none) "56GHZ_726_0".data
      = "Bellecour".data
    ∧ "Unknown".data ≠ "Bellecour".data := by
  refine ⟨by decide, by decide, by decide⟩

/-- Claim C4 witness: the id strategy applied to the padded float-artifact id
`" 726.0 "` resolves through normalization, whatever the coordinate map
holds. -/
theorem resolver_strategy_order_witness :
    get_stop_name_spatial ⟨0, 0, []⟩ (fun _ => some "Elsewhere".data)
        (fun s => if s = "726".data then some "Bellecour".data else none) " 726.0 ".data
      = "Bellecour".data :=
  (resolver_strategy_order ⟨0, 0, []⟩ (fun _ => some "Elsewhere".data)
      (fun s => if s = "726".data then some "Bellecour".data else none) " 726.0 ".data).1
    "Bellecour".data (by decide) (fun _ => some "Elsewhere".data)

/-! ## C8 -/

/-- Claim C8 (amended): the compiler is deterministic in everything except the
order in which each node's modes set is materialized into a list — the one
place where CPython's unspecified set iteration order is observed.  For any
two valid set enumerations (each producing a permutation of the carrier),
the two artifacts have identical edges and identical nodes up to reordering
each modes list. -/
theorem artifact_deterministic_up_to_mode_order (start_hour end_hour : ℚ)
    (stops : List Stop) (trips : List Trip) (routes : List Route) (st : List StopTimeRow)
    (builder : List StopTimeRow → Int → Int → RawGraph) (sl1 sl2 : List Str → List Str)
    (h1 : ∀ l, (sl1 l).Perm l) (h2 : ∀ l, (sl2 l).Perm l) :
    (generate_graph start_hour end_hour stops trips routes st builder sl1).edges
      = (generate_graph start_hour end_hour stops trips routes st builder sl2).edges
    ∧ (generate_graph start_hour end_hour stops trips routes st builder sl1).nodes.map
        (fun n => (n.id, n.name, n.x, n.y, (n.modes : Multiset Str), n.boarding_cost))
      = (generate_graph start_hour end_hour stops trips routes st builder sl2).nodes.map
        (fun n => (n.id, n.name, n.x, n.y, (n.modes : Multiset Str), n.boarding_cost)) := by
  unfold generate_graph
  dsimp only
  split
  · exact ⟨rfl, rfl⟩
  · refine ⟨rfl, ?_⟩
    show (nodesList _ sl1).map _ = (nodesList _ sl2).map _
    unfold nodesList
    rw [List.map_map, List.map_map]
    refine List.map_congr_left (fun p _ => ?_)
    have hm : ((sl1 p.2.2.modes : List Str) : Multiset Str) = (sl2 p.2.2.modes : List Str) := by
      rw [Multiset.coe_eq_coe]
      exact (h1 _).trans (h2 _).symm
    simp only [Function.comp_apply]
    rw [show ∀ a b : Multiset Str, a = b →
        (natRepr p.1, p.2.1, p.2.2.xsum / (p.2.2.count : ℚ), p.2.2.ysum / (p.2.2.count : ℚ),
          a, (0 : Int))
        = (natRepr p.1, p.2.1, p.2.2.xsum / (p.2.2.count : ℚ),
            p.2.2.ysum / (p.2.2.count : ℚ), b, (0 : Int)) from
      fun a b hab => by rw [hab]]
    exact hm

/-- Claim C8 is false as stated: on the same feed, date and window, two runs that
differ only in the (unspecified) set iteration order produce different
artifacts — the one stop's modes list is `["A", "B"]` in one run and
`["B", "A"]` in the other; the identity and the reversal are both valid
enumerations of the same mode set. -/
theorem set_order_leaks_counterexample :
    (∀ l : List Str, l.Perm l)
    ∧ (∀ l : List Str, (List.reverse l).Perm l)
    ∧ ((generate_graph 8 9 [⟨"S1".data, "Alpha".data, 0, 0⟩]
          [⟨"T1".data, "R1".data⟩, ⟨"T2".data, "R2".data⟩]
          [⟨"R1".data, 3, "A".data⟩, ⟨"R2".data, 3, "B".data⟩]
          [⟨"T1".data, "08:30:00".data, "S1".data, 0⟩,
            ⟨"T2".data, "08:30:00".data, "S1".data, 0⟩]
          (fun _ _ _ => ⟨[("S1".data, ⟨0, 0, []⟩)], []⟩) (fun l => l)).nodes.map
        fun n => n.modes)
      ≠ ((generate_graph 8 9 [⟨"S1".data, "Alpha".data, 0, 0⟩]
          [⟨"T1".data, "R1".data⟩, ⟨"T2".data, "R2".data⟩]
          [⟨"R1".data, 3, "A".data⟩, ⟨"R2".data, 3, "B".data⟩]
          [⟨"T1".data, "08:30:00".data, "S1".data, 0⟩,
            ⟨"T2".data, "08:30:00".data, "S1".data, 0⟩]
          (fun _ _ _ => ⟨[("S1".data, ⟨0, 0, []⟩)], []⟩) List.reverse).nodes.map
        fun n => n.modes) := by
  refine ⟨fun l => List.Perm.refl l, fun l => List.reverse_perm l, ?_⟩
  have h8 : hourToSec 8 = 28800 := by norm_num [hourToSec, pyTrunc]
  have h9 : hourToSec 9 = 32400 := by norm_num [hourToSec, pyTrunc]
  unfold generate_graph
  rw [h8, h9]
  decide

/-- Claim C8 witness: the determinism-up-to-mode-order theorem applied with the
identity enumeration on both sides of an empty feed. -/
theorem artifact_deterministic_up_to_mode_order_witness :
    (generate_graph 8 9 [] [] [] [] (fun _ _ _ => ⟨[], []⟩) (fun l => l)).edges
      = (generate_graph 8 9 [] [] [] [] (fun _ _ _ => ⟨[], []⟩) (fun l => l)).edges :=
  (artifact_deterministic_up_to_mode_order 8 9 [] [] [] [] (fun _ _ _ => ⟨[], []⟩)
    (fun l => l) (fun l => l) (fun l => List.Perm.refl l) (fun l => List.Perm.refl l)).1

/-! ## C7 -/

lemma noWS_nil : NoWS ([] : Str) := fun c hc => absurd hc (List.not_mem_nil c)

lemma noWS_cons {c : Char} {l : Str} : NoWS (c :: l) ↔ ¬ wsChar c ∧ NoWS l := by
  simp [NoWS]

lemma noWS_append {a b : Str} : NoWS (a ++ b) ↔ NoWS a ∧ NoWS b := by
  simp [NoWS, List.mem_append, or_imp, forall_and]

lemma hexDigit_mem (n : ℕ) : hexDigit n ∈ hexChars := by
  unfold hexDigit
  rcases h : hexChars.get? n with _ | c
  · rw [List.getD_eq_getElem?_getD, ← List.get?_eq_getElem?, h]
    decide
  · rw [List.getD_eq_getElem?_getD, ← List.get?_eq_getElem?, h]
    exact List.get?_mem h

lemma hexDigit_not_ws (n : ℕ) : ¬ wsChar (hexDigit n) := by
  have hall : ∀ c ∈ hexChars, ¬ wsChar c := by decide
  exact hall _ (hexDigit_mem n)

lemma digitChar_mem (n : ℕ) : digitChar n ∈ "0123456789".data := by
  unfold digitChar
  rcases h : "0123456789".data.get? n with _ | c
  · rw [List.getD_eq_getElem?_getD, ← List.get?_eq_getElem?, h]
    decide
  · rw [List.getD_eq_getElem?_getD, ← List.get?_eq_getElem?, h]
    exact List.get?_mem h

lemma natReprAux_digits (fuel : ℕ) : ∀ n : ℕ, ∀ c ∈ natReprAux fuel n,
    c ∈ "0123456789".data := by
  induction fuel with
  | zero =>
    intro n c hc
    simp [natReprAux] at hc
  | succ fuel ih =>
    intro n c hc
    unfold natReprAux at hc
    split_ifs at hc
    · simp only [List.mem_singleton] at hc
      subst hc
      exact digitChar_mem n
    · rcases List.mem_append.mp hc with hc | hc
      · exact ih (n / 10) c hc
      · simp only [List.mem_singleton] at hc
        subst hc
        exact digitChar_mem (n % 10)

lemma natRepr_NoWS (n : ℕ) : NoWS (natRepr n) := by
  intro c hc
  have hall : ∀ c ∈ "0123456789".data, ¬ wsChar c := by
    decide
  exact hall c (natReprAux_digits (n + 1) n c hc)

lemma intRepr_NoWS (i : Int) : NoWS (intRepr i) := by
  intro c hc
  unfold intRepr at hc
  split_ifs at hc
  · rcases List.mem_cons.mp hc with rfl | hc
    · decide
    · exact natRepr_NoWS _ c hc
  · exact natRepr_NoWS _ c hc

lemma escChar_ws_eq (c cp : Char) (hmem : cp ∈ escChar c) (hws : wsChar cp) :
    c = ' ' ∧ cp = ' ' := by
  unfold escChar at hmem
  split_ifs at hmem with h1 h2 h3 h4 h5 h6 h7 h8
  · simp only [List.mem_cons, List.not_mem_nil, or_false] at hmem
    rcases hmem with rfl | rfl <;> exact absurd hws (by decide)
  · simp only [List.mem_cons, List.not_mem_nil, or_false] at hmem
    rcases hmem with rfl | rfl <;> exact absurd hws (by decide)
  · simp only [List.mem_cons, List.not_mem_nil, or_false] at hmem
    rcases hmem with rfl | rfl <;> exact absurd hws (by decide)
  · simp only [List.mem_cons, List.not_mem_nil, or_false] at hmem
    rcases hmem with rfl | rfl <;> exact absurd hws (by decide)
  · simp only [List.mem_cons, List.not_mem_nil, or_false] at hmem
    rcases hmem with rfl | rfl <;> exact absurd hws (by decide)
  · simp only [List.mem_cons, List.not_mem_nil, or_false] at hmem
    rcases hmem with rfl | rfl <;> exact absurd hws (by decide)
  · simp only [List.mem_cons, List.not_mem_nil, or_false] at hmem
    rcases hmem with rfl | rfl <;> exact absurd hws (by decide)
  · simp only [List.mem_cons, List.not_mem_nil, or_false] at hmem
    rcases hmem with rfl | rfl | rfl | rfl | rfl | rfl
    · exact absurd hws (by decide)
    · exact absurd hws (by decide)
    · exact absurd hws (by decide)
    · exact absurd hws (by decide)
    · exact absurd hws (hexDigit_not_ws _)
    · exact absurd hws (hexDigit_not_ws _)
  · have hcp : cp = c := by simpa using hmem
    subst hcp
    rcases hws with h | h | h | h
    · exact ⟨h, h⟩
    · exact absurd (by rw [h]; decide) h8
    · exact absurd (by rw [h]; decide) h8
    · exact absurd (by rw [h]; decide) h8

lemma dumpStr_NoWS (s : Str) (hs : ' ' ∉ s) : NoWS (dumpStr s) := by
  intro c hc
  simp only [dumpStr, List.mem_cons, List.mem_append, List.mem_flatMap,
    List.mem_singleton, List.not_mem_nil, or_false] at hc
  rcases hc with rfl | ⟨a, ha, hc⟩ | rfl
  · decide
  · intro hws
    obtain ⟨hca, _⟩ := escChar_ws_eq a c hc hws
    exact hs (hca ▸ ha)
  · decide

lemma joinSep_NoWS (sep : Str) (l : List Str) (hsep : NoWS sep)
    (hl : ∀ s ∈ l, NoWS s) : NoWS (joinSep sep l) := by
  induction l with
  | nil => exact noWS_nil
  | cons x xs ih =>
    cases xs with
    | nil => exact hl x (List.mem_cons_self _ _)
    | cons y ys =>
      show NoWS (x ++ sep ++ joinSep sep (y :: ys))
      rw [noWS_append, noWS_append]
      exact ⟨⟨hl x (List.mem_cons_self _ _), hsep⟩,
        ih (fun s hs => hl s (List.mem_cons_of_mem _ hs))⟩

lemma dumpNode_NoWS (fr : ℚ → Str) (n : NodeOut) (hfr : ∀ q, NoWS (fr q))
    (hid : ' ' ∉ n.id) (hname : ' ' ∉ n.name) (hmodes : ∀ m ∈ n.modes, ' ' ∉ m) :
    NoWS (dumpNode fr n) := by
  unfold dumpNode
  simp only [noWS_cons, noWS_append]
  repeat' apply And.intro
  all_goals first
    | decide
    | exact noWS_nil
    | exact dumpStr_NoWS n.id hid
    | exact dumpStr_NoWS n.name hname
    | exact hfr n.x
    | exact hfr n.y
    | exact intRepr_NoWS n.boarding_cost
    | exact joinSep_NoWS [','] (n.modes.map dumpStr) (by decide) (fun s hs => by
        rcases List.mem_map.mp hs with ⟨m, hm, rfl⟩
        exact dumpStr_NoWS m (hmodes m hm))

lemma dumpEdge_NoWS (e : ℕ × ℕ × Int) : NoWS (dumpEdge e) := by
  unfold dumpEdge
  simp only [noWS_cons, noWS_append]
  repeat' apply And.intro
  all_goals first
    | decide
    | exact noWS_nil
    | exact natRepr_NoWS e.1
    | exact natRepr_NoWS e.2.1
    | exact intRepr_NoWS e.2.2

lemma escChar_nonascii (c : Char) (h : 127 < c.toNat) : escChar c = [c] := by
  have h1 : ¬(c = '"') := fun hc => by rw [hc] at h; exact absurd h (by decide)
  have h2 : ¬(c = '\\') := fun hc => by rw [hc] at h; exact absurd h (by decide)
  have h3 : ¬(c = '\n') := fun hc => by rw [hc] at h; exact absurd h (by decide)
  have h4 : ¬(c = '\t') := fun hc => by rw [hc] at h; exact absurd h (by decide)
  have h5 : ¬(c = '\r') := fun hc => by rw [hc] at h; exact absurd h (by decide)
  have h6 : ¬(c = '\x08') := fun hc => by rw [hc] at h; exact absurd h (by decide)
  have h7 : ¬(c = '\x0c') := fun hc => by rw [hc] at h; exact absurd h (by decide)
  have h8 : ¬(c.toNat < 32) := by omega
  unfold escChar
  rw [if_neg h1, if_neg h2, if_neg h3, if_neg h4, if_neg h5, if_neg h6, if_neg h7, if_neg h8]

lemma dumpStr_preserves_nonascii (s : Str) (c : Char) (hc : c ∈ s) (h : 127 < c.toNat) :
    c ∈ dumpStr s := by
  unfold dumpStr
  refine List.mem_cons_of_mem _ (List.mem_append.mpr (Or.inl ?_))
  exact List.mem_flatMap.mpr ⟨c, hc, by rw [escChar_nonascii c h]; exact List.mem_singleton.mpr rfl⟩

/-- Claim C7 (amended): the serialized artifact is an object holding only the
`nodes` and `edges` lists — there is no metadata block on either write
path — and the program has two serialization paths: the main export
(lines 246–247) uses the compact separators and `ensure_ascii=False`, so it
introduces no whitespace of its own (when the float representation and the
artifact's strings are space-free, the entire output has no JSON whitespace
character; tab, newline and carriage return inside strings are escaped
away) and writes every non-ASCII character of a string value literally,
while the empty-window early return (line 109) uses the `json` defaults and
its output does contain spaces. -/
theorem dump_compact_and_literal (fr : ℚ → Str) (A : Artifact)
    (hfr : ∀ q, NoWS (fr q))
    (hA : ∀ n ∈ A.nodes, ' ' ∉ n.id ∧ ' ' ∉ n.name ∧ ∀ m ∈ n.modes, ' ' ∉ m) :
    NoWS (dumpArtifact fr A)
    ∧ (∀ s : Str, ∀ c ∈ s, 127 < c.toNat → c ∈ dumpStr s)
    ∧ ' ' ∈ emptyWindowDump
    ∧ ¬("metadata".data <:+: emptyWindowDump) := by
  refine ⟨?_, ?_, by decide, by decide⟩
  · unfold dumpArtifact
    simp only [noWS_cons, noWS_append]
    repeat' apply And.intro
    all_goals first
      | decide
      | exact noWS_nil
      | exact joinSep_NoWS [','] (A.nodes.map (dumpNode fr)) (by decide) (fun s hs => by
          rcases List.mem_map.mp hs with ⟨n, hn, rfl⟩
          obtain ⟨hid, hname, hmodes⟩ := hA n hn
          exact dumpNode_NoWS fr n hfr hid hname hmodes)
      | exact joinSep_NoWS [','] (A.edges.map dumpEdge) (by decide) (fun s hs => by
          rcases List.mem_map.mp hs with ⟨e, _, rfl⟩
          exact dumpEdge_NoWS e)
  · intro s c hc h
    exact dumpStr_preserves_nonascii s c hc h

/-- Claim C7 is false as stated on two counts: the serialized artifact
carries no metadata block — for the empty compilation result the main-path
output is `{"nodes":[],"edges":[]}` and the key `"metadata"` occurs
nowhere — and the empty-window write of line 109 uses the `json` module's
default separators, so its output bytes do contain whitespace. -/
theorem no_metadata_block_counterexample :
    dumpArtifact (fun _ => "0".data) ⟨[], []⟩
      = braceL :: ("\"nodes\":[],\"edges\":[]".data ++ [braceR])
    ∧ ¬("metadata".data <:+: dumpArtifact (fun _ => "0".data) ⟨[], []⟩)
    ∧ ' ' ∈ emptyWindowDump := by
  refine ⟨by decide, by decide, by decide⟩

/-- Claim C7 witness: the whitespace-freeness theorem applied to the empty
artifact, specialized to the opening brace. -/
theorem dump_compact_and_literal_witness :
    ¬ wsChar braceL :=
  (dump_compact_and_literal (fun _ => "0".data) ⟨[], []⟩
      (fun _ => fun c hc => (by decide : ∀ c ∈ "0".data, ¬ wsChar c) c hc)
      (fun n hn => absurd hn (List.not_mem_nil n))).1 braceL (by decide)

/-! ## C10 -/

lemma isDigit_not_ws (c : Char) (h : c.isDigit = true) : c.isWhitespace = false := by
  by_contra hw
  rw [Bool.not_eq_false] at hw
  simp only [Char.isWhitespace, Bool.or_eq_true, decide_eq_true_eq] at hw
  rcases hw with ((rfl | rfl) | rfl) | rfl <;> exact absurd h (by decide)

lemma colon_not_mem_of_digits (l : Str) (h : l.all Char.isDigit = true) : ':' ∉ l := by
  intro hc
  exact absurd (List.all_eq_true.mp h _ hc) (by decide)

lemma dropWhile_eq_self_of_head (p : Char → Bool) (l : Str)
    (h : ∀ c ∈ l, p c = false) : l.dropWhile p = l := by
  cases l with
  | nil => rfl
  | cons c cs =>
    rw [List.dropWhile_cons, if_neg]
    rw [h c (List.mem_cons_self _ _)]
    exact Bool.false_ne_true

lemma pyStrip_eq_self (l : Str) (h : ∀ c ∈ l, c.isWhitespace = false) : pyStrip l = l := by
  unfold pyStrip
  rw [dropWhile_eq_self_of_head _ _ h,
    dropWhile_eq_self_of_head _ _ (fun c hc => h c (List.mem_reverse.mp hc)),
    List.reverse_reverse]

lemma pyStrip_digits (l : Str) (h : l.all Char.isDigit = true) : pyStrip l = l :=
  pyStrip_eq_self l (fun c hc => isDigit_not_ws c (List.all_eq_true.mp h _ hc))

lemma pySplit_of_not_mem (sep : Char) (l : Str) (h : sep ∉ l) : pySplit sep l = [l] := by
  induction l with
  | nil => rfl
  | cons c cs ih =>
    have hcs : sep ∉ cs := fun hc => h (List.mem_cons_of_mem _ hc)
    have hc : ¬(c = sep) := fun hc => h (List.mem_cons.mpr (Or.inl hc.symm))
    simp [pySplit, hc, ih hcs]

lemma pySplit_append (sep : Char) (a b : Str) (ha : sep ∉ a) :
    pySplit sep (a ++ sep :: b) = a :: pySplit sep b := by
  induction a with
  | nil => simp [pySplit]
  | cons c cs ih =>
    have hcs : sep ∉ cs := fun h => ha (List.mem_cons_of_mem _ h)
    have hc : ¬(c = sep) := fun h => ha (List.mem_cons.mpr (Or.inl h.symm))
    rw [List.cons_append]
    simp only [pySplit, if_neg hc, ih hcs]

lemma pyInt?_digits (l : Str) (hne : l ≠ []) (hd : l.all Char.isDigit = true) :
    pyInt? l = some (decDigits l : Int) := by
  unfold pyInt?
  rw [show pyStrip l = l from pyStrip_digits l hd]
  cases l with
  | nil => exact absurd rfl hne
  | cons c cs =>
    have hcdig : c.isDigit = true := List.all_eq_true.mp hd _ (List.mem_cons_self _ _)
    have hcminus : ¬(c = '-') := fun h => by rw [h] at hcdig; exact absurd hcdig (by decide)
    have hcplus : ¬(c = '+') := fun h => by rw [h] at hcdig; exact absurd hcdig (by decide)
    dsimp only
    split
    · next rest heq =>
      exact absurd (List.cons.inj heq).1 hcminus
    · next rest heq =>
      exact absurd (List.cons.inj heq).1 hcplus
    · rw [if_pos ⟨hne, hd⟩]

lemma decDigits_append_digit (l : Str) (c : Char) :
    decDigits (l ++ [c]) = decDigits l * 10 + (c.toNat - 48) := by
  simp [decDigits, List.foldl_append]

lemma decDigits_cons_zero (l : Str) : decDigits ('0' :: l) = decDigits l := by
  unfold decDigits
  rw [List.foldl_cons, show (0 * 10 + ('0'.toNat - 48)) = 0 from by decide]

lemma digitChar_toNat (n : ℕ) (h : n < 10) : (digitChar n).toNat - 48 = n := by
  interval_cases n <;> decide

lemma digitChar_isDigit (n : ℕ) (h : n < 10) : (digitChar n).isDigit = true := by
  interval_cases n <;> decide

lemma decDigits_natReprAux (fuel : ℕ) : ∀ n, n < fuel → decDigits (natReprAux fuel n) = n := by
  induction fuel with
  | zero => intro n h; omega
  | succ fuel ih =>
    intro n h
    unfold natReprAux
    by_cases h10 : n < 10
    · rw [if_pos h10]
      simp [decDigits, digitChar_toNat n h10]
    · rw [if_neg h10]
      have hlt : n / 10 < n := Nat.div_lt_self (by omega) (by omega)
      rw [decDigits_append_digit, ih (n / 10) (by omega),
        digitChar_toNat (n % 10) (Nat.mod_lt _ (by omega))]
      omega

lemma decDigits_natRepr (n : ℕ) : decDigits (natRepr n) = n :=
  decDigits_natReprAux (n + 1) n (by omega)

lemma natReprAux_isDigit (fuel : ℕ) : ∀ n, (natReprAux fuel n).all Char.isDigit = true := by
  induction fuel with
  | zero => intro n; rfl
  | succ fuel ih =>
    intro n
    unfold natReprAux
    by_cases h10 : n < 10
    · rw [if_pos h10]
      simp [digitChar_isDigit n h10]
    · rw [if_neg h10]
      simp [List.all_append, ih (n / 10), digitChar_isDigit (n % 10) (Nat.mod_lt _ (by omega))]

lemma natRepr_ne_nil (n : ℕ) : natRepr n ≠ [] := by
  unfold natRepr natReprAux
  by_cases h10 : n < 10
  · rw [if_pos h10]
    exact List.cons_ne_nil _ _
  · rw [if_neg h10]
    simp

lemma pad2_digits (i : Int) : (pad2 i).all Char.isDigit = true ∧ pad2 i ≠ [] := by
  unfold pad2
  split
  · refine ⟨?_, List.cons_ne_nil _ _⟩
    simp [natReprAux_isDigit, natRepr]
  · exact ⟨natReprAux_isDigit _ _, natRepr_ne_nil _⟩

lemma decDigits_pad2 (i : Int) : decDigits (pad2 i) = i.toNat := by
  unfold pad2
  split
  · rw [decDigits_cons_zero, decDigits_natRepr]
  · rw [decDigits_natRepr]

/-- Claim C10: for every time string `H:MM:SS` admitted by the schedules filter:
the stored arrival value (normalized, then cut by `[:-3]`) keeps the
original hour and minutes when the hour is below 24, becomes the two-digit
form of `h % 24` with the original minutes when `h ≥ 24` (the seconds
stripped in both cases), and in all cases its hour component is strictly
below 24. -/
theorem stored_arrival_hour_below_24 (hs ms ss : Str)
    (hh : hs ≠ [] ∧ hs.all Char.isDigit = true)
    (hm : ms.length = 2 ∧ ms.all Char.isDigit = true)
    (hsec : ss.length = 2 ∧ ss.all Char.isDigit = true) :
    timePatMatch (hs ++ (':' :: (ms ++ (':' :: ss)))) = true
    ∧ ((decDigits hs : Int) < 24 →
        storedArrival (hs ++ (':' :: (ms ++ (':' :: ss)))) = hs ++ (':' :: ms)
        ∧ hourComponent (storedArrival (hs ++ (':' :: (ms ++ (':' :: ss)))))
            = some ((decDigits hs : Int)))
    ∧ (24 ≤ (decDigits hs : Int) →
        storedArrival (hs ++ (':' :: (ms ++ (':' :: ss))))
            = pad2 ((decDigits hs : Int) % 24) ++ (':' :: ms)
        ∧ hourComponent (storedArrival (hs ++ (':' :: (ms ++ (':' :: ss)))))
            = some ((decDigits hs : Int) % 24))
    ∧ (∀ hv, hourComponent (storedArrival (hs ++ (':' :: (ms ++ (':' :: ss))))) = some hv →
        hv < 24) := by
  have hcolh : ':' ∉ hs := colon_not_mem_of_digits hs hh.2
  have hcolm : ':' ∉ ms := colon_not_mem_of_digits ms hm.2
  have hcols : ':' ∉ ss := colon_not_mem_of_digits ss hsec.2
  have hsplit : pySplit ':' (hs ++ (':' :: (ms ++ (':' :: ss)))) = [hs, ms, ss] := by
    rw [pySplit_append ':' hs _ hcolh, pySplit_append ':' ms _ hcolm,
      pySplit_of_not_mem ':' ss hcols]
  have hpat : timePatMatch (hs ++ (':' :: (ms ++ (':' :: ss)))) = true := by
    unfold timePatMatch
    rw [hsplit]
    simp [hh.1, hh.2, hm.1, hm.2, hsec.1, hsec.2]
  have hpy : pyInt? hs = some (decDigits hs : Int) := pyInt?_digits hs hh.1 hh.2
  have hmod_nonneg : (0 : Int) ≤ (decDigits hs : Int) % 24 :=
    Int.emod_nonneg _ (by norm_num)
  have hmod_lt : (decDigits hs : Int) % 24 < 24 :=
    Int.emod_lt_of_pos _ (by norm_num)
  have hstored_lo : (decDigits hs : Int) < 24 →
      storedArrival (hs ++ (':' :: (ms ++ (':' :: ss)))) = hs ++ (':' :: ms) := by
    intro hlt
    have hnorm : normalize_gtfs_time (hs ++ (':' :: (ms ++ (':' :: ss))))
        = hs ++ (':' :: (ms ++ (':' :: ss))) := by
      unfold normalize_gtfs_time
      rw [hsplit]
      simp only [hpy]
      rw [if_neg (by omega)]
    unfold storedArrival
    dsimp only
    rw [hnorm]
    have hassoc : hs ++ (':' :: (ms ++ (':' :: ss)))
        = (hs ++ (':' :: ms)) ++ (':' :: ss) := by
      simp [List.append_assoc]
    rw [hassoc]
    rw [show ((hs ++ (':' :: ms)) ++ (':' :: ss)).length - 3 = (hs ++ (':' :: ms)).length
      from by simp [List.length_append, hsec.1]; omega]
    exact List.take_left _ _
  have hstored_hi : 24 ≤ (decDigits hs : Int) →
      storedArrival (hs ++ (':' :: (ms ++ (':' :: ss))))
        = pad2 ((decDigits hs : Int) % 24) ++ (':' :: ms) := by
    intro hge
    have hnorm : normalize_gtfs_time (hs ++ (':' :: (ms ++ (':' :: ss))))
        = pad2 ((decDigits hs : Int) % 24) ++ (':' :: (ms ++ (':' :: ss))) := by
      unfold normalize_gtfs_time
      rw [hsplit]
      simp only [hpy]
      rw [if_pos hge]
      simp [List.append_assoc]
    unfold storedArrival
    dsimp only
    rw [hnorm]
    have hassoc : pad2 ((decDigits hs : Int) % 24) ++ (':' :: (ms ++ (':' :: ss)))
        = (pad2 ((decDigits hs : Int) % 24) ++ (':' :: ms)) ++ (':' :: ss) := by
      simp [List.append_assoc]
    rw [hassoc]
    rw [show ((pad2 ((decDigits hs : Int) % 24) ++ (':' :: ms)) ++ (':' :: ss)).length - 3
        = (pad2 ((decDigits hs : Int) % 24) ++ (':' :: ms)).length
      from by simp [List.length_append, hsec.1]; omega]
    exact List.take_left _ _
  have hhour_lo : hourComponent (hs ++ (':' :: ms)) = some (decDigits hs : Int) := by
    unfold hourComponent
    rw [pySplit_append ':' hs ms hcolh]
    exact hpy
  have hhour_hi : hourComponent (pad2 ((decDigits hs : Int) % 24) ++ (':' :: ms))
      = some ((decDigits hs : Int) % 24) := by
    unfold hourComponent
    have hpd := pad2_digits ((decDigits hs : Int) % 24)
    rw [pySplit_append ':' _ ms (colon_not_mem_of_digits _ hpd.1)]
    show pyInt? (pad2 ((decDigits hs : Int) % 24)) = _
    rw [pyInt?_digits _ hpd.2 hpd.1, decDigits_pad2]
    rw [Int.toNat_of_nonneg hmod_nonneg]
  refine ⟨hpat, fun hlt => ⟨hstored_lo hlt, ?_⟩, fun hge => ⟨hstored_hi hge, ?_⟩, ?_⟩
  · rw [hstored_lo hlt, hhour_lo]
  · rw [hstored_hi hge, hhour_hi]
  · intro hv hsome
    by_cases hlt : (decDigits hs : Int) < 24
    · rw [hstored_lo hlt, hhour_lo] at hsome
      cases Option.some.inj hsome
      exact hlt
    · rw [hstored_hi (by omega), hhour_hi] at hsome
      cases Option.some.inj hsome
      exact hmod_lt

/-- Claim C10 witness: the post-midnight encoding `"26:15:00"` is stored as
`"02:15"`, whose hour component 2 is below 24. -/
theorem stored_arrival_hour_below_24_witness :
    storedArrival ("26".data ++ (':' :: ("15".data ++ (':' :: "00".data))))
        = pad2 ((decDigits "26".data : Int) % 24) ++ (':' :: "15".data)
    ∧ pad2 ((decDigits "26".data : Int) % 24) ++ (':' :: "15".data) = "02:15".data :=
  ⟨((stored_arrival_hour_below_24 "26".data "15".data "00".data
      ⟨by decide, by decide⟩ ⟨by decide, by decide⟩ ⟨by decide, by decide⟩).2.2.1
    (by decide)).1, by decide⟩

end Pelo
